import Mathlib

/-!
Shallow embedding of the vendroo_server Express/PostgreSQL backend
(`src/index.js`, the variant with the to-do resource) and proofs about its
request handlers.

Modelling conventions:
* JSON body values distinguish absent, null and present values (`JStr`,
  `JBool`), mirroring what the handlers destructure from `req.body`.
* The database tables are lists of rows plus a `nextId` counter standing for
  the `SERIAL` sequence; `RETURNING *` is the affected row list.
* SQL `ORDER BY id DESC` is an insertion sort by the relation "greater or
  equal id".  SQL `ILIKE`, `COALESCE` and the integer cast that PostgreSQL
  applies to the `id` parameter are modelled explicitly below.
* Timestamps are opaque strings; `due_date` is `Option String`.
-/

namespace Vendroo

/-- A JSON string-field value as seen by a handler: the key can be absent,
explicitly `null`, or a string. -/
inductive JStr where
  | absent
  | null
  | val (s : String)
deriving DecidableEq, Repr

/-- A JSON boolean-field value: absent, `null`, or a boolean. -/
inductive JBool where
  | absent
  | null
  | val (b : Bool)
deriving DecidableEq, Repr

/-- JavaScript `x || null` applied to a string field, as in the PUT handler's
parameter list `[title || null, ...]`: absent, `null` and the empty string
are all falsy and collapse to SQL NULL (`none`). -/
def JStr.orNull : JStr → Option String
  | .absent => none
  | .null => none
  | .val s => if s = "" then none else some s

/-- JavaScript truthiness test `!x` on a string field (`if (!title)`). -/
def JStr.falsy : JStr → Bool
  | .absent => true
  | .null => true
  | .val s => s == ""

/-- JavaScript `x || ""` on a string field (`description || ""`), and also
the raw value of a field known to be truthy. -/
def JStr.orEmpty : JStr → String
  | .val s => s
  | _ => ""

/-- The boolean `completed` parameter is passed to the query as-is; the
driver sends `undefined`/`null` as SQL NULL. -/
def JBool.param : JBool → Option Bool
  | .absent => none
  | .null => none
  | .val b => some b

/-! ### PostgreSQL integer parameter cast

`WHERE id = $1` receives the raw path segment; PostgreSQL casts the text to
an integer, raising an error (surfaced by the handler as HTTP 500) when the
text is not an optionally signed digit string with surrounding whitespace. -/

/-- Modelled from the spec: PostgreSQL's text-to-integer input conversion
applied to the `:id` path parameter (the repository passes the string
through unconverted).  Returns `none` exactly when the cast would raise. -/
def pgParseInt (s : String) : Option Int :=
  let ws : Char → Bool := fun c => c == ' ' || c == '\t' || c == '\n' || c == '\r'
  let cs := s.data.dropWhile ws
  let sgn : Int := match cs with
    | '-' :: _ => -1
    | _ => 1
  let cs' := match cs with
    | '-' :: r => r
    | '+' :: r => r
    | r => r
  let ds := cs'.takeWhile Char.isDigit
  let rest := cs'.dropWhile Char.isDigit
  if ds.isEmpty then none
  else if (rest.dropWhile ws).isEmpty then
    some (sgn * ds.foldl (fun acc c => acc * 10 + ((c.toNat : Int) - 48)) 0)
  else none

/-! ### SQL LIKE / ILIKE pattern matching -/

/-- All suffixes of a list, longest first (the list itself down to `[]`). -/
def suffixes : List Char → List (List Char)
  | [] => [[]]
  | c :: cs => (c :: cs) :: suffixes cs

/-- Modelled from the spec: PostgreSQL `LIKE` pattern matching on character
lists.  `%` matches any sequence, `_` any single character, `\` escapes the
next pattern character; other characters match themselves. -/
def likeM : List Char → List Char → Bool
  | [], cs => cs.isEmpty
  | p :: ps, cs =>
    if p = '%' then
      (suffixes cs).any (fun cs' => likeM ps cs')
    else if p = '\\' then
      match ps, cs with
      | q :: ps', c :: cs' => q == c && likeM ps' cs'
      | _, _ => false
    else
      match cs with
      | [] => false
      | c :: cs' => (if p = '_' then true else p == c) && likeM ps cs'

/-- Modelled from the spec: PostgreSQL `ILIKE`, i.e. `LIKE` after folding
both pattern and subject to lower case. -/
def ilike (pat s : String) : Bool :=
  likeM (pat.data.map Char.toLower) (s.data.map Char.toLower)

/-! ### To-do data model -/

/-- A row of the `todos` table (`created_at` is never consulted by any
handler and is omitted). -/
structure Todo where
  id : Int
  title : String
  description : String
  completed : Bool
  due_date : Option String
deriving DecidableEq, Repr

/-- The `todos` table: its rows in insertion order plus the `SERIAL`
sequence value. -/
structure TodosDB where
  rows : List Todo
  nextId : Int
deriving DecidableEq, Repr

/-- Response of a to-do route, tagged by HTTP status. -/
inductive TodoResp where
  | ok (data : Todo)
  | okDeleted (message : String) (data : Todo)
  | badRequest (error : String)
  | notFound (error : String)
  | serverError (error : String)
deriving DecidableEq, Repr

/-- `ORDER BY id DESC` on todos: b comes after a when `b.id ≤ a.id`. -/
def todoGE (a b : Todo) : Prop := b.id ≤ a.id

instance : DecidableRel todoGE := fun a b => inferInstanceAs (Decidable (b.id ≤ a.id))

instance : IsTotal Todo todoGE := ⟨fun a b => le_total b.id a.id⟩

instance : IsTrans Todo todoGE := ⟨fun _ _ _ hab hbc => le_trans hbc hab⟩

/-! ### To-do routes -/

/-- Body of `POST /api/todos`. -/
structure TodoPostBody where
  title : JStr
  description : JStr
  due_date : JStr
deriving DecidableEq, Repr

/-- `POST /api/todos`: reject a falsy title with 400, otherwise insert
`(title, description || "", due_date || null)`; `completed` takes the
schema default `false`. -/
def postTodo (b : TodoPostBody) (db : TodosDB) : TodoResp × TodosDB :=
  if b.title.falsy then (.badRequest "Title is required", db)
  else
    let row : Todo :=
      { id := db.nextId
        title := b.title.orEmpty
        description := b.description.orEmpty
        completed := false
        due_date := b.due_date.orNull }
    (.ok row, { rows := db.rows ++ [row], nextId := db.nextId + 1 })

/-- The `title ILIKE '%'||search||'%'` condition, added only when the
`search` query parameter is truthy. -/
def searchCond (search : Option String) (t : Todo) : Bool :=
  match search with
  | none => true
  | some s => if s = "" then true else ilike ("%" ++ s ++ "%") t.title

/-- The `completed = true` / `completed = false` condition selected by the
`status` query parameter; any other value adds no condition. -/
def statusCond (status : Option String) (t : Todo) : Bool :=
  if status = some "completed" then t.completed
  else if status = some "pending" then !t.completed
  else true

/-- `GET /api/todos`: WHERE-filter by the search and status conditions
(joined by AND), then `ORDER BY id DESC`. -/
def getTodos (search status : Option String) (db : TodosDB) : List Todo :=
  List.insertionSort todoGE (db.rows.filter (fun t => searchCond search t && statusCond status t))

/-- Body of `PUT /api/todos/:id`. -/
structure TodoPutBody where
  title : JStr
  description : JStr
  completed : JBool
  due_date : JStr
deriving DecidableEq, Repr

/-- The row produced by
`SET title = COALESCE($1, title), ..., due_date = COALESCE($4, due_date)`
with parameters `[title || null, description || null, completed, due_date || null]`. -/
def coalesceUpdate (b : TodoPutBody) (t : Todo) : Todo :=
  { t with
    title := (b.title.orNull).getD t.title
    description := (b.description.orNull).getD t.description
    completed := (b.completed.param).getD t.completed
    due_date :=
      match b.due_date.orNull with
      | some s => some s
      | none => t.due_date }

/-- `PUT /api/todos/:id`: cast the id (500 on failure), update all rows with
that id, 404 when none matched, otherwise 200 with the first returned row. -/
def putTodo (idStr : String) (b : TodoPutBody) (db : TodosDB) : TodoResp × TodosDB :=
  match pgParseInt idStr with
  | none => (.serverError "Database update failed", db)
  | some i =>
    match (db.rows.filter (fun t => t.id == i)).map (coalesceUpdate b) with
    | [] => (.notFound "To-Do not found", db)
    | r :: _ =>
      (.ok r, { db with rows := db.rows.map (fun t => if t.id == i then coalesceUpdate b t else t) })

/-- `DELETE /api/todos/:id`: cast the id (500 on failure), delete all rows
with that id, 404 when none matched, otherwise 200 with message and the
first deleted row. -/
def deleteTodo (idStr : String) (db : TodosDB) : TodoResp × TodosDB :=
  match pgParseInt idStr with
  | none => (.serverError "Database delete failed", db)
  | some i =>
    match db.rows.filter (fun t => t.id == i) with
    | [] => (.notFound "To-Do not found", db)
    | r :: _ =>
      (.okDeleted "To-Do deleted" r, { db with rows := db.rows.filter (fun t => !(t.id == i)) })

/-! ### Upload handler and form resource -/

/-- Modelled from the spec: Node's `path.extname` dotfile rule on a reversed
basename (no `/` inside).  The extension is empty when the basename has no
dot, when its only leading character is the dot, or when the basename is
exactly `".."`. -/
def extOfBaseRev (r : List Char) : List Char :=
  if r = ['.', '.'] then []
  else
    match r.dropWhile (fun c => c != '.') with
    | [] => []
    | _ :: pre =>
      if pre.isEmpty then [] else '.' :: (r.takeWhile (fun c => c != '.')).reverse

/-- Modelled from the spec: Node's `path.extname` — drop trailing slashes,
take the last path component, and extract the extension from its last dot,
returning `""` for dotfiles such as `".png"`. -/
def extname (p : String) : String :=
  ⟨extOfBaseRev ((p.data.reverse.dropWhile (fun c => c == '/')).takeWhile (fun c => c != '/'))⟩

/-- The multer `filename` callback: `Date.now() + "-" + Math.round(...)`
concatenated with `path.extname(file.originalname)`.  The timestamp and the
random draw are passed in as parameters. -/
def genFilename (ts rnd : Nat) (originalname : String) : String :=
  toString ts ++ "-" ++ toString rnd ++ extname originalname

/-- The environment variables the form route reads. -/
structure Env where
  base_url : Option String
  port : Option String
deriving DecidableEq, Repr

/-- An unset environment variable and the empty string are both falsy to
`||`. -/
def envStr (o : Option String) : String := o.getD ""

/-- JavaScript `a || b` on strings: `b` exactly when `a` is empty. -/
def jsOrStr (a b : String) : String := if a = "" then b else a

/-- The handler's `process.env.BASE_URL || "https://vendroo-server.onrender.com"
|| "http://localhost:" + (process.env.PORT || 5000)` chain. -/
def baseUrl (env : Env) : String :=
  jsOrStr (jsOrStr (envStr env.base_url) "https://vendroo-server.onrender.com")
    ("http://localhost:" ++ jsOrStr (envStr env.port) "5000")

/-- A row of the `form_entries` table (`created_at` omitted; no handler
reads it). -/
structure FormEntry where
  id : Int
  owner : String
  shopname : String
  businesstype : String
  phone : String
  location : String
  building : String
  photo_url : Option String
deriving DecidableEq, Repr

/-- The `form_entries` table. -/
structure FormDB where
  rows : List FormEntry
  nextId : Int
deriving DecidableEq, Repr

/-- Server-side state touched by the form route: the table and the set of
filenames present in the uploads directory. -/
structure ServerState where
  formDB : FormDB
  uploads : List String
deriving DecidableEq, Repr

/-- Response of a form route. -/
inductive FormResp where
  | ok (data : FormEntry)
  | badRequest (error : String)
  | serverError (error : String)
deriving DecidableEq, Repr

/-- A multipart text field is either present (a string) or absent. -/
structure FormReq where
  owner : Option String
  shopname : Option String
  businesstype : Option String
  phone : Option String
  location : Option String
  building : Option String
  file : Option String
deriving DecidableEq, Repr

/-- JavaScript `!x` on a multipart field: absent or empty. -/
def strFalsy (o : Option String) : Bool := o.getD "" == ""

/-- `ORDER BY id DESC` on form entries. -/
def formGE (a b : FormEntry) : Prop := b.id ≤ a.id

instance : DecidableRel formGE := fun a b => inferInstanceAs (Decidable (b.id ≤ a.id))

instance : IsTotal FormEntry formGE := ⟨fun a b => le_total b.id a.id⟩

instance : IsTrans FormEntry formGE := ⟨fun _ _ _ hab hbc => le_trans hbc hab⟩

/-- `POST /api/form`: the `upload.single("photo")` middleware first writes
the incoming file (if any) under its generated name, then the handler
validates the five required fields (400 on failure), builds `photo_url`
and inserts the row.  `req.file` carries the original filename. -/
def postForm (env : Env) (ts rnd : Nat) (req : FormReq) (st : ServerState) :
    FormResp × ServerState :=
  let fileName : Option String := req.file.map (fun orig => genFilename ts rnd orig)
  let st1 : ServerState :=
    match fileName with
    | some n => { st with uploads := st.uploads ++ [n] }
    | none => st
  if strFalsy req.owner || strFalsy req.shopname || strFalsy req.businesstype ||
      strFalsy req.phone || strFalsy req.location then
    (.badRequest "Owner, shopname, businesstype, phone, and location are required", st1)
  else
    let photo_url : Option String := fileName.map (fun n => baseUrl env ++ "/uploads/" ++ n)
    let row : FormEntry :=
      { id := st1.formDB.nextId
        owner := req.owner.getD ""
        shopname := req.shopname.getD ""
        businesstype := req.businesstype.getD ""
        phone := req.phone.getD ""
        location := req.location.getD ""
        building := req.building.getD ""
        photo_url := photo_url }
    (.ok row,
      { st1 with
        formDB := { rows := st1.formDB.rows ++ [row], nextId := st1.formDB.nextId + 1 } })

/-- `GET /api/form`: `SELECT * FROM form_entries ORDER BY id DESC`. -/
def getForm (st : ServerState) : List FormEntry :=
  List.insertionSort formGE st.formDB.rows

/-- Response of the static `/uploads` route. -/
inductive StaticResp where
  | file (name : String)
  | notFound
deriving DecidableEq, Repr

/-- `express.static(uploadDir)`: serve a stored file, 404 when absent. -/
def serveUpload (name : String) (st : ServerState) : StaticResp :=
  if st.uploads.contains name then .file name else .notFound

/-- A sequence of `POST /api/form` requests applied in order (only the
resulting state is kept). -/
def runCreates (env : Env) (ts rnd : Nat) (reqs : List FormReq) (st : ServerState) :
    ServerState :=
  reqs.foldl (fun s r => (postForm env ts rnd r s).2) st

/-! ### Claim-side vocabulary -/

/-- Case-insensitive substring containment, the spec's reading of the search
filter. -/
def containsCI (hay needle : String) : Bool :=
  decide ((needle.data.map Char.toLower) <:+: (hay.data.map Char.toLower))

/-- `true` when the character list contains no `LIKE` metacharacter. -/
def noLikeMeta (l : List Char) : Bool :=
  l.all (fun c => !(c == '%' || c == '_' || c == '\\'))

/-- First non-empty string of a list, `""` if all are empty. -/
def firstNonEmpty : List String → String
  | [] => ""
  | s :: rest => if s = "" then firstNonEmpty rest else s

/-- `s` ends with `suf`. -/
def endsWithStr (s suf : String) : Bool :=
  decide (suf.data <:+ s.data)

/-- The `photo_url` of a successful form response, `none` otherwise. -/
def respPhotoUrl : FormResp → Option (Option String)
  | .ok r => some r.photo_url
  | _ => none

/-- The five required form fields are all truthy. -/
def validReq (req : FormReq) : Prop :=
  strFalsy req.owner = false ∧ strFalsy req.shopname = false ∧
  strFalsy req.businesstype = false ∧ strFalsy req.phone = false ∧
  strFalsy req.location = false

/-- Every stored form id is below the sequence value. -/
def goodState (st : ServerState) : Prop :=
  ∀ r ∈ st.formDB.rows, r.id < st.formDB.nextId

/-- A row whose title "aXb" matches the unescaped LIKE pattern built from
the search text "a%b" without containing that text. -/
def c2row : Todo := ⟨1, "aXb", "", false, none⟩

/-- One-row table for the C2 counterexample. -/
def c2db : TodosDB := ⟨[c2row], 2⟩

/-! ### Lemmas about the LIKE matcher -/

theorem mem_suffixes {l' l : List Char} : l' ∈ suffixes l ↔ l' <:+ l := by
  induction l with
  | nil => simp [suffixes]
  | cons c cs ih => simp [suffixes, List.suffix_cons_iff, ih]

theorem likeM_cons (p : Char) (ps cs : List Char) :
    likeM (p :: ps) cs =
      (if p = '%' then (suffixes cs).any (fun cs' => likeM ps cs')
       else if p = '\\' then
         match ps, cs with
         | q :: ps', c :: cs' => q == c && likeM ps' cs'
         | _, _ => false
       else
         match cs with
         | [] => false
         | c :: cs' => (if p = '_' then true else p == c) && likeM ps cs') := by
  rw [likeM.eq_def]

theorem likeM_pct {ps cs : List Char} :
    likeM ('%' :: ps) cs = true ↔ ∃ cs', cs' <:+ cs ∧ likeM ps cs' = true := by
  rw [likeM_cons, if_pos rfl]
  simp only [List.any_eq_true, mem_suffixes]

theorem likeM_lit {ps : List Char} (h : noLikeMeta ps = true) :
    ∀ cs : List Char, likeM (ps ++ ['%']) cs = true ↔ ps <+: cs := by
  induction ps with
  | nil =>
    intro cs
    simp only [List.nil_append]
    constructor
    · intro _
      exact List.nil_prefix
    · intro _
      rw [likeM_pct]
      exact ⟨[], List.nil_suffix, rfl⟩
  | cons p ps ih =>
    simp only [noLikeMeta, List.all_cons, Bool.and_eq_true, Bool.not_eq_true',
      Bool.or_eq_false_iff, beq_eq_false_iff_ne] at h
    obtain ⟨⟨⟨hp, hu⟩, hb⟩, hps⟩ := h
    have ihs := ih (by simpa [noLikeMeta] using hps)
    intro cs
    cases cs with
    | nil =>
      rw [List.cons_append, likeM_cons, if_neg hp, if_neg hb]
      simp
    | cons c cs' =>
      rw [List.cons_append, likeM_cons, if_neg hp, if_neg hb]
      simp only [if_neg hu, Bool.and_eq_true, beq_iff_eq, ihs cs', List.cons_prefix_cons]

theorem likeM_contains {ps cs : List Char} (h : noLikeMeta ps = true) :
    likeM ('%' :: (ps ++ ['%'])) cs = true ↔ ps <:+: cs := by
  rw [likeM_pct, List.infix_iff_prefix_suffix]
  constructor
  · rintro ⟨t, ht, hm⟩
    exact ⟨t, (likeM_lit h t).1 hm, ht⟩
  · rintro ⟨t, hp, hs⟩
    exact ⟨t, hs, (likeM_lit h t).2 hp⟩

theorem ilike_contains {s title : String}
    (hs : noLikeMeta (s.data.map Char.toLower) = true) :
    ilike ("%" ++ s ++ "%") title = true ↔ containsCI title s = true := by
  have hdata : ("%" ++ s ++ "%").data = '%' :: (s.data ++ ['%']) := by
    simp [String.data_append, show ("%" : String).data = ['%'] from rfl]
  have hmap : (('%' :: (s.data ++ ['%'])).map Char.toLower)
      = '%' :: ((s.data.map Char.toLower) ++ ['%']) := by
    simp [List.map_append, show Char.toLower '%' = '%' from rfl]
  rw [ilike, hdata, hmap, likeM_contains hs, containsCI, decide_eq_true_iff]

/-! ### Lemmas about ordering and the form resource -/

theorem mem_insertionSort {α : Type} (r : α → α → Prop) [DecidableRel r] {a : α}
    {l : List α} : a ∈ List.insertionSort r l ↔ a ∈ l :=
  (List.perm_insertionSort r l).mem_iff

theorem head_insertionSort_max {l : List FormEntry} {x : FormEntry}
    (hx : x ∈ l) (hmax : ∀ y ∈ l, y ≠ x → y.id < x.id) :
    (List.insertionSort formGE l).head? = some x := by
  obtain ⟨h, t, hht⟩ : ∃ h t, List.insertionSort formGE l = h :: t := by
    cases hsort : List.insertionSort formGE l with
    | nil =>
      exfalso
      have hmem := (mem_insertionSort formGE).2 hx
      rw [hsort] at hmem
      exact absurd hmem (List.not_mem_nil x)
    | cons h t => exact ⟨h, t, rfl⟩
  have hsorted := List.sorted_insertionSort formGE l
  rw [hht] at hsorted
  have hhl : h ∈ l := (mem_insertionSort formGE).1 (by rw [hht]; exact List.mem_cons_self h t)
  have hxs : x ∈ h :: t := by
    rw [← hht]
    exact (mem_insertionSort formGE).2 hx
  have hle : x.id ≤ h.id := by
    rcases List.mem_cons.1 hxs with heq | hxt
    · rw [heq]
    · exact List.rel_of_sorted_cons hsorted x hxt
  rw [hht]
  by_cases hxh : h = x
  · rw [hxh]
    rfl
  · exact absurd hle (not_le.2 (hmax h hhl hxh))

theorem postForm_valid_step (env : Env) (ts rnd : Nat) (req : FormReq) (st : ServerState)
    (hv : validReq req) :
    ∃ row : FormEntry,
      (postForm env ts rnd req st).1 = .ok row ∧
      (postForm env ts rnd req st).2.formDB.rows = st.formDB.rows ++ [row] ∧
      (postForm env ts rnd req st).2.formDB.nextId = st.formDB.nextId + 1 ∧
      row.id = st.formDB.nextId := by
  obtain ⟨h1, h2, h3, h4, h5⟩ := hv
  cases hf : req.file with
  | none =>
    refine ⟨{ id := st.formDB.nextId, owner := req.owner.getD "",
              shopname := req.shopname.getD "", businesstype := req.businesstype.getD "",
              phone := req.phone.getD "", location := req.location.getD "",
              building := req.building.getD "", photo_url := none }, ?_, ?_, ?_, ?_⟩ <;>
      simp [postForm, hf, h1, h2, h3, h4, h5]
  | some orig =>
    refine ⟨{ id := st.formDB.nextId, owner := req.owner.getD "",
              shopname := req.shopname.getD "", businesstype := req.businesstype.getD "",
              phone := req.phone.getD "", location := req.location.getD "",
              building := req.building.getD "",
              photo_url := some (baseUrl env ++ "/uploads/" ++ genFilename ts rnd orig) },
      ?_, ?_, ?_, ?_⟩ <;>
      simp [postForm, hf, h1, h2, h3, h4, h5]

theorem goodState_postForm (env : Env) (ts rnd : Nat) (req : FormReq) (st : ServerState)
    (hg : goodState st) (hv : validReq req) :
    goodState (postForm env ts rnd req st).2 := by
  obtain ⟨row, _, hrows, hnext, hid⟩ := postForm_valid_step env ts rnd req st hv
  intro r hr
  rw [hrows] at hr
  rw [hnext]
  rcases List.mem_append.1 hr with hold | hnew
  · exact lt_trans (hg r hold) (lt_add_one _)
  · rw [List.mem_singleton.1 hnew, hid]
    exact lt_add_one _

theorem runCreates_facts (env : Env) (ts rnd : Nat) (reqs : List FormReq) :
    ∀ st : ServerState, goodState st → (∀ r ∈ reqs, validReq r) →
      goodState (runCreates env ts rnd reqs st) ∧
      (runCreates env ts rnd reqs st).formDB.rows.length =
        st.formDB.rows.length + reqs.length := by
  induction reqs with
  | nil => intro st hg _; exact ⟨hg, rfl⟩
  | cons q qs ih =>
    intro st hg hv
    have hq : validReq q := hv q (List.mem_cons_self q qs)
    have hstep := postForm_valid_step env ts rnd q st hq
    obtain ⟨row, _, hrows, _, _⟩ := hstep
    have hg' := goodState_postForm env ts rnd q st hg hq
    have hrec := ih (postForm env ts rnd q st).2 hg'
      (fun r hr => hv r (List.mem_cons_of_mem q hr))
    refine ⟨hrec.1, ?_⟩
    have heq : runCreates env ts rnd (q :: qs) st =
        runCreates env ts rnd qs (postForm env ts rnd q st).2 := rfl
    rw [heq, hrec.2, hrows, List.length_append, List.length_singleton, List.length_cons]
    omega

theorem runCreates_last (env : Env) (ts rnd : Nat) (reqs : List FormReq) :
    ∀ st : ServerState, goodState st → (∀ r ∈ reqs, validReq r) → reqs ≠ [] →
      ∃ row : FormEntry,
        (runCreates env ts rnd reqs st).formDB.rows.getLast? = some row ∧
        ∀ y ∈ (runCreates env ts rnd reqs st).formDB.rows, y ≠ row → y.id < row.id := by
  induction reqs with
  | nil => intro st _ _ hne; exact absurd rfl hne
  | cons q qs ih =>
    intro st hg hv _
    have hq : validReq q := hv q (List.mem_cons_self q qs)
    have hg' := goodState_postForm env ts rnd q st hg hq
    cases qs with
    | nil =>
      obtain ⟨row, _, hrows, _, hid⟩ := postForm_valid_step env ts rnd q st hq
      refine ⟨row, ?_, ?_⟩
      · show (postForm env ts rnd q st).2.formDB.rows.getLast? = some row
        rw [hrows, List.getLast?_concat]
      · intro y hy hne
        have hy' : y ∈ st.formDB.rows ++ [row] := by
          rw [← hrows]
          exact hy
        rcases List.mem_append.1 hy' with hold | hnew
        · rw [hid]
          exact hg y hold
        · exact absurd (List.mem_singleton.1 hnew) hne
    | cons q' qs' =>
      have heq : runCreates env ts rnd (q :: q' :: qs') st =
          runCreates env ts rnd (q' :: qs') (postForm env ts rnd q st).2 := rfl
      rw [heq]
      exact ih (postForm env ts rnd q st).2 hg'
        (fun r hr => hv r (List.mem_cons_of_mem q hr)) (by simp)

/-! ### Claim theorems -/

/-- C10: a `PUT /api/todos/:id` or `DELETE /api/todos/:id` whose path id the
database cannot cast to an integer fails with HTTP 500 (a storage error),
not 404, and leaves the todos table unchanged. -/
theorem c10_nonint_id_is_storage_error (idStr : String) (b : TodoPutBody) (db : TodosDB)
    (h : pgParseInt idStr = none) :
    putTodo idStr b db = (.serverError "Database update failed", db) ∧
    deleteTodo idStr db = (.serverError "Database delete failed", db) := by
  constructor
  · simp [putTodo, h]
  · simp [deleteTodo, h]

/-- Witness for C10 at the id string "abc". -/
theorem c10_witness :
    pgParseInt "abc" = none ∧
    putTodo "abc" ⟨.absent, .absent, .absent, .absent⟩ ⟨[], 1⟩ =
      (.serverError "Database update failed", ⟨[], 1⟩) ∧
    deleteTodo "abc" ⟨[], 1⟩ = (.serverError "Database delete failed", ⟨[], 1⟩) := by
  refine ⟨by decide, ?_, ?_⟩
  · exact (c10_nonint_id_is_storage_error "abc" ⟨.absent, .absent, .absent, .absent⟩
      ⟨[], 1⟩ (by decide)).1
  · exact (c10_nonint_id_is_storage_error "abc" ⟨.absent, .absent, .absent, .absent⟩
      ⟨[], 1⟩ (by decide)).2

/-- C3: a `POST /api/form` in which any of the five required fields is
omitted or empty responds 400 with the fixed message naming the required
fields (not the missing ones), and the `form_entries` table is unchanged. -/
theorem c3_form_validation (env : Env) (ts rnd : Nat) (req : FormReq) (st : ServerState)
    (h : strFalsy req.owner = true ∨ strFalsy req.shopname = true ∨
         strFalsy req.businesstype = true ∨ strFalsy req.phone = true ∨
         strFalsy req.location = true) :
    (postForm env ts rnd req st).1 =
      .badRequest "Owner, shopname, businesstype, phone, and location are required" ∧
    (postForm env ts rnd req st).2.formDB = st.formDB := by
  have hcond : (strFalsy req.owner || strFalsy req.shopname || strFalsy req.businesstype ||
      strFalsy req.phone || strFalsy req.location) = true := by
    rcases h with h | h | h | h | h <;> simp [h]
  cases hf : req.file with
  | none => constructor <;> simp [postForm, hf, hcond]
  | some orig => constructor <;> simp [postForm, hf, hcond]

/-- Witness for C3: omitted owner. -/
theorem c3_witness :
    (postForm ⟨none, none⟩ 0 0 ⟨none, some "s", some "b", some "p", some "l", none, none⟩
        ⟨⟨[], 1⟩, []⟩).1 =
      .badRequest "Owner, shopname, businesstype, phone, and location are required" ∧
    (postForm ⟨none, none⟩ 0 0 ⟨none, some "s", some "b", some "p", some "l", none, none⟩
        ⟨⟨[], 1⟩, []⟩).2.formDB = ⟨[], 1⟩ :=
  c3_form_validation ⟨none, none⟩ 0 0 ⟨none, some "s", some "b", some "p", some "l", none, none⟩
    ⟨⟨[], 1⟩, []⟩ (Or.inl (by decide))

/-- C4: `POST /api/todos` rejects an absent, null or empty title with 400
and creates nothing; with a non-empty title it answers 200 with the created
row, whose description defaults to `""`, due_date to null, and completed to
`false`. -/
theorem c4_todo_create (b : TodoPostBody) (db : TodosDB) :
    (b.title.falsy = true → postTodo b db = (.badRequest "Title is required", db)) ∧
    (∀ s : String, b.title = .val s → s ≠ "" →
      ∃ row : Todo,
        postTodo b db = (.ok row, ⟨db.rows ++ [row], db.nextId + 1⟩) ∧
        row.title = s ∧ row.completed = false ∧ row.id = db.nextId ∧
        (b.description = .absent → row.description = "") ∧
        (b.description = .null → row.description = "") ∧
        (b.due_date = .absent → row.due_date = none) ∧
        (b.due_date = .null → row.due_date = none) ∧
        (∀ d : String, b.description = .val d → row.description = d) ∧
        (∀ d : String, b.due_date = .val d → d ≠ "" → row.due_date = some d)) := by
  constructor
  · intro hf
    simp [postTodo, hf]
  · intro s hs hne
    have hfal : b.title.falsy = false := by
      rw [hs]
      simp [JStr.falsy, hne]
    refine ⟨{ id := db.nextId, title := b.title.orEmpty,
              description := b.description.orEmpty, completed := false,
              due_date := b.due_date.orNull }, ?_, ?_, rfl, rfl, ?_, ?_, ?_, ?_, ?_, ?_⟩
    · simp [postTodo, hfal]
    · rw [hs]
      rfl
    · intro h
      rw [h]
      rfl
    · intro h
      rw [h]
      rfl
    · intro h
      rw [h]
      rfl
    · intro h
      rw [h]
      rfl
    · intro d hd
      rw [hd]
      rfl
    · intro d hd hdne
      rw [hd]
      simp [JStr.orNull, hdne]

/-- Witness for C4: both branches at concrete inputs. -/
theorem c4_witness :
    postTodo ⟨.absent, .absent, .absent⟩ ⟨[], 1⟩ = (.badRequest "Title is required", ⟨[], 1⟩) ∧
    ∃ row : Todo,
      postTodo ⟨.val "Buy milk", .absent, .absent⟩ ⟨[], 1⟩ = (.ok row, ⟨[] ++ [row], 2⟩) ∧
      row.title = "Buy milk" ∧ row.completed = false ∧ row.id = 1 ∧
      row.description = "" ∧ row.due_date = none := by
  constructor
  · exact (c4_todo_create ⟨.absent, .absent, .absent⟩ ⟨[], 1⟩).1 rfl
  · obtain ⟨row, h1, h2, h3, h4, h5, _, h7, _, _, _⟩ :=
      (c4_todo_create ⟨.val "Buy milk", .absent, .absent⟩ ⟨[], 1⟩).2 "Buy milk" rfl (by decide)
    exact ⟨row, h1, h2, h3, h4, h5 rfl, h7 rfl⟩

/-- C5: `DELETE /api/todos/:id` on an existing id removes the row (a
subsequent list no longer contains it) and answers with the deleted row and
a confirmation message; on a non-existent id it answers 404 and leaves the
table unchanged. -/
theorem c5_todo_delete (idStr : String) (i : Int) (db : TodosDB)
    (hid : pgParseInt idStr = some i) :
    (∀ t : Todo, db.rows.filter (fun r => r.id == i) = [t] →
      deleteTodo idStr db =
        (.okDeleted "To-Do deleted" t, ⟨db.rows.filter (fun r => !(r.id == i)), db.nextId⟩) ∧
      t ∉ (deleteTodo idStr db).2.rows ∧
      t ∉ getTodos none none (deleteTodo idStr db).2) ∧
    (db.rows.filter (fun r => r.id == i) = [] →
      deleteTodo idStr db = (.notFound "To-Do not found", db)) := by
  constructor
  · intro t ht
    have htid : (t.id == i) = true := by
      have : t ∈ db.rows.filter (fun r => r.id == i) := by
        rw [ht]
        exact List.mem_singleton_self t
      exact (List.mem_filter.1 this).2
    have heq : deleteTodo idStr db =
        (.okDeleted "To-Do deleted" t, ⟨db.rows.filter (fun r => !(r.id == i)), db.nextId⟩) := by
      simp [deleteTodo, hid, ht]
    refine ⟨heq, ?_, ?_⟩
    · rw [heq]
      intro hmem
      have := (List.mem_filter.1 hmem).2
      rw [htid] at this
      exact absurd this (by decide)
    · rw [heq]
      intro hmem
      have hmem' := (mem_insertionSort todoGE).1 hmem
      have := (List.mem_filter.1 hmem').1
      have := (List.mem_filter.1 this).2
      rw [htid] at this
      exact absurd this (by decide)
  · intro h
    simp [deleteTodo, hid, h]

/-- Witness for C5: delete id 1 from a two-row table, then a missing id. -/
theorem c5_witness :
    deleteTodo "1" ⟨[⟨1, "a", "", false, none⟩, ⟨2, "b", "", true, none⟩], 3⟩ =
      (.okDeleted "To-Do deleted" ⟨1, "a", "", false, none⟩,
        ⟨[⟨2, "b", "", true, none⟩], 3⟩) ∧
    deleteTodo "7" ⟨[⟨1, "a", "", false, none⟩, ⟨2, "b", "", true, none⟩], 3⟩ =
      (.notFound "To-Do not found", ⟨[⟨1, "a", "", false, none⟩, ⟨2, "b", "", true, none⟩], 3⟩) := by
  constructor
  · exact ((c5_todo_delete "1" 1 ⟨[⟨1, "a", "", false, none⟩, ⟨2, "b", "", true, none⟩], 3⟩
      (by decide)).1 ⟨1, "a", "", false, none⟩ (by decide)).1
  · exact (c5_todo_delete "7" 7 ⟨[⟨1, "a", "", false, none⟩, ⟨2, "b", "", true, none⟩], 3⟩
      (by decide)).2 (by decide)

/-- C1: `PUT /api/todos/:id` on an existing id leaves each of title,
description, completed and due_date unchanged when the supplied value is
absent or null — with the falsy coalescing also mapping an explicitly empty
string for the text fields to "no change" — overwrites a field with any
other supplied value, in particular a body of only `completed: true` flips
completed and touches nothing else, and the response carries the updated
row. -/
theorem c1_put_coalesce (idStr : String) (i : Int) (b : TodoPutBody) (db : TodosDB) (t : Todo)
    (hid : pgParseInt idStr = some i)
    (ht : db.rows.filter (fun r => r.id == i) = [t]) :
    ∃ t' : Todo,
      (putTodo idStr b db).1 = .ok t' ∧
      t' ∈ (putTodo idStr b db).2.rows ∧
      ((b.title = .absent ∨ b.title = .null ∨ b.title = .val "") → t'.title = t.title) ∧
      (∀ s : String, b.title = .val s → s ≠ "" → t'.title = s) ∧
      ((b.description = .absent ∨ b.description = .null ∨ b.description = .val "") →
        t'.description = t.description) ∧
      (∀ s : String, b.description = .val s → s ≠ "" → t'.description = s) ∧
      ((b.completed = .absent ∨ b.completed = .null) → t'.completed = t.completed) ∧
      (∀ v : Bool, b.completed = .val v → t'.completed = v) ∧
      ((b.due_date = .absent ∨ b.due_date = .null ∨ b.due_date = .val "") →
        t'.due_date = t.due_date) ∧
      (∀ s : String, b.due_date = .val s → s ≠ "" → t'.due_date = some s) ∧
      (b = ⟨.absent, .absent, .val true, .absent⟩ → t' = { t with completed := true }) := by
  have htmem : t ∈ db.rows.filter (fun r => r.id == i) := by
    rw [ht]
    exact List.mem_singleton_self t
  have htid : (t.id == i) = true := (List.mem_filter.1 htmem).2
  have htrows : t ∈ db.rows := (List.mem_filter.1 htmem).1
  refine ⟨coalesceUpdate b t, ?_, ?_, ?_, ?_, ?_, ?_, ?_, ?_, ?_, ?_, ?_⟩
  · simp [putTodo, hid, ht]
  · have heq : (putTodo idStr b db).2.rows =
        db.rows.map (fun r => if r.id == i then coalesceUpdate b r else r) := by
      simp [putTodo, hid, ht]
    rw [heq]
    have : (if t.id == i then coalesceUpdate b t else t) = coalesceUpdate b t := by
      rw [htid]
      rfl
    rw [← this]
    exact List.mem_map_of_mem _ htrows
  · rintro (h | h | h) <;> simp [coalesceUpdate, h, JStr.orNull]
  · intro s hs hne
    simp [coalesceUpdate, hs, JStr.orNull, hne]
  · rintro (h | h | h) <;> simp [coalesceUpdate, h, JStr.orNull]
  · intro s hs hne
    simp [coalesceUpdate, hs, JStr.orNull, hne]
  · rintro (h | h) <;> simp [coalesceUpdate, h, JBool.param]
  · intro v hv
    simp [coalesceUpdate, hv, JBool.param]
  · rintro (h | h | h) <;> simp [coalesceUpdate, h, JStr.orNull]
  · intro s hs hne
    simp [coalesceUpdate, hs, JStr.orNull, hne]
  · intro hb
    rw [hb]
    simp [coalesceUpdate, JStr.orNull, JBool.param]

/-- Witness for C1: body `completed: true` on the row with id 1. -/
theorem c1_witness :
    ∃ t' : Todo,
      (putTodo "1" ⟨.absent, .absent, .val true, .absent⟩
          ⟨[⟨1, "a", "d", false, some "2025-01-01"⟩], 2⟩).1 = .ok t' ∧
      t' ∈ (putTodo "1" ⟨.absent, .absent, .val true, .absent⟩
          ⟨[⟨1, "a", "d", false, some "2025-01-01"⟩], 2⟩).2.rows ∧
      t' = ⟨1, "a", "d", true, some "2025-01-01"⟩ := by
  obtain ⟨t', h1, h2, _, _, _, _, _, _, _, _, h11⟩ :=
    c1_put_coalesce "1" 1 ⟨.absent, .absent, .val true, .absent⟩
      ⟨[⟨1, "a", "d", false, some "2025-01-01"⟩], 2⟩ ⟨1, "a", "d", false, some "2025-01-01"⟩
      (by decide) (by decide)
  exact ⟨t', h1, h2, h11 rfl⟩

/-- C9: when `POST /api/form` carries a photo but fails required-field
validation, the file has already been written by the upload middleware
(which runs before the handler), the write is not rolled back on the 400
response, and the stored file is served by the static `/uploads` route. -/
theorem c9_upload_survives_validation_failure (env : Env) (ts rnd : Nat) (req : FormReq)
    (st : ServerState) (orig : String)
    (hfile : req.file = some orig)
    (h : strFalsy req.owner = true ∨ strFalsy req.shopname = true ∨
         strFalsy req.businesstype = true ∨ strFalsy req.phone = true ∨
         strFalsy req.location = true) :
    postForm env ts rnd req st =
      (.badRequest "Owner, shopname, businesstype, phone, and location are required",
        { st with uploads := st.uploads ++ [genFilename ts rnd orig] }) ∧
    serveUpload (genFilename ts rnd orig) (postForm env ts rnd req st).2 =
      .file (genFilename ts rnd orig) := by
  have hcond : (strFalsy req.owner || strFalsy req.shopname || strFalsy req.businesstype ||
      strFalsy req.phone || strFalsy req.location) = true := by
    rcases h with h | h | h | h | h <;> simp [h]
  have heq : postForm env ts rnd req st =
      (.badRequest "Owner, shopname, businesstype, phone, and location are required",
        { st with uploads := st.uploads ++ [genFilename ts rnd orig] }) := by
    simp [postForm, hfile, hcond]
  refine ⟨heq, ?_⟩
  rw [heq, serveUpload, if_pos ?_]
  simp

/-- Witness for C9: photo attached, owner missing. -/
theorem c9_witness :
    postForm ⟨none, none⟩ 1000 5 ⟨none, some "s", some "b", some "p", some "l", none, some "x.png"⟩
        ⟨⟨[], 1⟩, []⟩ =
      (.badRequest "Owner, shopname, businesstype, phone, and location are required",
        ⟨⟨[], 1⟩, [] ++ [genFilename 1000 5 "x.png"]⟩) ∧
    serveUpload (genFilename 1000 5 "x.png")
        (postForm ⟨none, none⟩ 1000 5
          ⟨none, some "s", some "b", some "p", some "l", none, some "x.png"⟩ ⟨⟨[], 1⟩, []⟩).2 =
      .file (genFilename 1000 5 "x.png") :=
  c9_upload_survives_validation_failure ⟨none, none⟩ 1000 5
    ⟨none, some "s", some "b", some "p", some "l", none, some "x.png"⟩ ⟨⟨[], 1⟩, []⟩
    "x.png" rfl (Or.inl (by decide))

/-- C6: the base URL of a stored photo is the first non-empty of the
environment override, the hardcoded production fallback and the
localhost-with-port fallback; the persisted photo_url joins it with the
upload path prefix and the generated filename, and is null when no file is
attached. -/
theorem c6_photo_url (env : Env) (ts rnd : Nat) (req : FormReq) (st : ServerState)
    (hv : validReq req) :
    baseUrl env = firstNonEmpty [envStr env.base_url, "https://vendroo-server.onrender.com",
      "http://localhost:" ++ jsOrStr (envStr env.port) "5000"] ∧
    (∀ orig : String, req.file = some orig →
      ∃ row : FormEntry, (postForm env ts rnd req st).1 = .ok row ∧
        row.photo_url = some (baseUrl env ++ "/uploads/" ++ genFilename ts rnd orig)) ∧
    (req.file = none →
      ∃ row : FormEntry, (postForm env ts rnd req st).1 = .ok row ∧ row.photo_url = none) := by
  obtain ⟨h1, h2, h3, h4, h5⟩ := hv
  refine ⟨?_, ?_, ?_⟩
  · by_cases h : envStr env.base_url = "" <;>
      simp [baseUrl, firstNonEmpty, jsOrStr, h]
  · intro orig hfile
    refine ⟨{ id := st.formDB.nextId, owner := req.owner.getD "",
              shopname := req.shopname.getD "", businesstype := req.businesstype.getD "",
              phone := req.phone.getD "", location := req.location.getD "",
              building := req.building.getD "",
              photo_url := some (baseUrl env ++ "/uploads/" ++ genFilename ts rnd orig) },
      ?_, rfl⟩
    simp [postForm, hfile, h1, h2, h3, h4, h5]
  · intro hfile
    refine ⟨{ id := st.formDB.nextId, owner := req.owner.getD "",
              shopname := req.shopname.getD "", businesstype := req.businesstype.getD "",
              phone := req.phone.getD "", location := req.location.getD "",
              building := req.building.getD "", photo_url := none }, ?_, rfl⟩
    simp [postForm, hfile, h1, h2, h3, h4, h5]

/-- Witness for C6: explicit override present, then the fallback. -/
theorem c6_witness :
    baseUrl ⟨some "http://e.x", none⟩ =
      firstNonEmpty [envStr (some "http://e.x"), "https://vendroo-server.onrender.com",
        "http://localhost:" ++ jsOrStr (envStr (none : Option String)) "5000"] ∧
    (∃ row : FormEntry,
      (postForm ⟨some "http://e.x", none⟩ 1000 5
          ⟨some "o", some "s", some "b", some "p", some "l", none, some "x.png"⟩
          ⟨⟨[], 1⟩, []⟩).1 = .ok row ∧
      row.photo_url = some (baseUrl ⟨some "http://e.x", none⟩ ++ "/uploads/" ++
        genFilename 1000 5 "x.png")) := by
  have h := c6_photo_url ⟨some "http://e.x", none⟩ 1000 5
    ⟨some "o", some "s", some "b", some "p", some "l", none, some "x.png"⟩ ⟨⟨[], 1⟩, []⟩
    ⟨by decide, by decide, by decide, by decide, by decide⟩
  exact ⟨h.1, h.2.1 "x.png" rfl⟩

/-- C2 counterexample: with search "a%b" the listed row's title does not
contain the search string, because the search string is interpolated
unescaped into the LIKE pattern and `%` acts as a wildcard; so the result
is not exactly the rows whose title contains the search string. -/
theorem c2_counterexample :
    c2row ∈ getTodos (some "a%b") none c2db ∧ containsCI c2row.title "a%b" = false := by
  constructor
  · decide
  · decide

/-- C2 (amended): for a search string without LIKE metacharacters (no
character of it case-folds to `%`, `_` or `\`), `GET /api/todos` returns
exactly the rows whose title contains the search string case-insensitively,
intersected with the status filter (`completed`→true rows,
`pending`→false rows, anything else or absent→no filter), ordered by id
descending; an absent search applies no search filter. -/
theorem c2_list_filter (s : String) (status : Option String) (db : TodosDB)
    (hs : noLikeMeta (s.data.map Char.toLower) = true) :
    (∀ t : Todo, t ∈ getTodos (some s) status db ↔
      (t ∈ db.rows ∧ containsCI t.title s = true ∧ statusCond status t = true)) ∧
    (∀ t : Todo, t ∈ getTodos none status db ↔ (t ∈ db.rows ∧ statusCond status t = true)) ∧
    List.Sorted todoGE (getTodos (some s) status db) ∧
    (∀ t : Todo, statusCond (some "completed") t = t.completed) ∧
    (∀ t : Todo, statusCond (some "pending") t = !t.completed) ∧
    (∀ v : String, v ≠ "completed" → v ≠ "pending" →
      ∀ t : Todo, statusCond (some v) t = true) := by
  have hsearch : ∀ t : Todo, searchCond (some s) t = true ↔ containsCI t.title s = true := by
    intro t
    by_cases he : s = ""
    · subst he
      simp [searchCond, containsCI]
    · rw [searchCond]
      simp only [if_neg he]
      exact ilike_contains hs
  refine ⟨?_, ?_, ?_, fun t => rfl, fun t => rfl, ?_⟩
  · intro t
    rw [getTodos, mem_insertionSort, List.mem_filter, Bool.and_eq_true, hsearch t]
  · intro t
    rw [getTodos, mem_insertionSort, List.mem_filter, Bool.and_eq_true]
    have : searchCond none t = true := rfl
    tauto
  · exact List.sorted_insertionSort todoGE _
  · intro v h1 h2 t
    simp [statusCond, h1, h2]

/-- Witness for C2 (amended) at search "foo", status "completed". -/
theorem c2_witness :
    noLikeMeta (("foo").data.map Char.toLower) = true ∧
    (c2row ∈ getTodos (some "foo") (some "completed") c2db ↔
      (c2row ∈ c2db.rows ∧ containsCI c2row.title "foo" = true ∧
        statusCond (some "completed") c2row = true)) :=
  ⟨by decide, (c2_list_filter "foo" (some "completed") c2db (by decide)).1 c2row⟩

/-- C7 counterexample: a file named exactly ".png" ends in ".png", but its
extension under the path rules is empty (a bare dotfile), so the stored
filename and hence the photo_url do not end in ".png". -/
theorem c7_counterexample :
    endsWithStr ".png" ".png" = true ∧
    extname ".png" = "" ∧
    genFilename 1000 5 ".png" = "1000-5" ∧
    respPhotoUrl (postForm ⟨none, none⟩ 1000 5
        ⟨some "o", some "s", some "b", some "p", some "l", none, some ".png"⟩
        ⟨⟨[], 1⟩, []⟩).1 =
      some (some "https://vendroo-server.onrender.com/uploads/1000-5") ∧
    endsWithStr "https://vendroo-server.onrender.com/uploads/1000-5" ".png" = false := by
  refine ⟨by decide, by decide, by decide, ?_, by decide⟩
  rfl

/-- C7 (amended): the stored filename is the millisecond timestamp, a
hyphen and the random integer, concatenated with the original file's
extension; a file whose extension (per the path rules) is ".png" — any name
ending in ".png" except a bare dotfile basename ".png" — yields a photo_url
ending in ".png", and a form submitted without a file yields a null
photo_url. -/
theorem c7_filename_extension (ts rnd : Nat) (name : String)
    (hext : extname name = ".png")
    (env : Env) (req : FormReq) (st : ServerState)
    (hfile : req.file = some name) (hv : validReq req) :
    genFilename ts rnd name = toString ts ++ "-" ++ toString rnd ++ extname name ∧
    (∃ row : FormEntry, (postForm env ts rnd req st).1 = .ok row ∧
      ∃ u : String, row.photo_url = some u ∧ endsWithStr u ".png" = true) ∧
    (∀ req' : FormReq, req'.file = none → validReq req' →
      ∃ row : FormEntry, (postForm env ts rnd req' st).1 = .ok row ∧
        row.photo_url = none) := by
  refine ⟨rfl, ?_, ?_⟩
  · obtain ⟨hfact, hwith, _⟩ := c6_photo_url env ts rnd req st hv
    obtain ⟨row, hresp, hurl⟩ := hwith name hfile
    refine ⟨row, hresp, baseUrl env ++ "/uploads/" ++ genFilename ts rnd name, hurl, ?_⟩
    rw [endsWithStr, decide_eq_true_iff]
    have : (baseUrl env ++ "/uploads/" ++ genFilename ts rnd name).data =
        ((baseUrl env ++ "/uploads/").data ++ (toString ts ++ "-" ++ toString rnd).data) ++
          (".png" : String).data := by
      rw [genFilename, hext]
      simp [String.data_append, List.append_assoc]
    rw [this]
    exact List.suffix_append _ _
  · intro req' hfile' hv'
    exact (c6_photo_url env ts rnd req' st hv').2.2 hfile'

/-- Witness for C7 (amended): name "photo.png". -/
theorem c7_witness :
    genFilename 1000 5 "photo.png" = toString 1000 ++ "-" ++ toString 5 ++ extname "photo.png" ∧
    (∃ row : FormEntry,
      (postForm ⟨none, none⟩ 1000 5
          ⟨some "o", some "s", some "b", some "p", some "l", none, some "photo.png"⟩
          ⟨⟨[], 1⟩, []⟩).1 = .ok row ∧
      ∃ u : String, row.photo_url = some u ∧ endsWithStr u ".png" = true) := by
  have h := c7_filename_extension 1000 5 "photo.png" (by decide) ⟨none, none⟩
    ⟨some "o", some "s", some "b", some "p", some "l", none, some "photo.png"⟩ ⟨⟨[], 1⟩, []⟩
    rfl ⟨by decide, by decide, by decide, by decide, by decide⟩
  exact ⟨h.1, h.2.1⟩

/-- C8: `GET /api/form` returns a permutation of the whole table sorted by
id descending, and after N successful creates on a well-formed state the
returned list has length at least N with the most recently created row
(the last row in insertion order) first. -/
theorem c8_form_list_order (env : Env) (ts rnd : Nat) (reqs : List FormReq) (st : ServerState)
    (hg : goodState st) (hv : ∀ r ∈ reqs, validReq r) (hne : reqs ≠ []) :
    (getForm (runCreates env ts rnd reqs st)).Perm
      (runCreates env ts rnd reqs st).formDB.rows ∧
    List.Sorted formGE (getForm (runCreates env ts rnd reqs st)) ∧
    reqs.length ≤ (getForm (runCreates env ts rnd reqs st)).length ∧
    (getForm (runCreates env ts rnd reqs st)).head? =
      (runCreates env ts rnd reqs st).formDB.rows.getLast? := by
  obtain ⟨hgood, hlen⟩ := runCreates_facts env ts rnd reqs st hg hv
  obtain ⟨row, hlast, hmax⟩ := runCreates_last env ts rnd reqs st hg hv hne
  have hperm : (getForm (runCreates env ts rnd reqs st)).Perm
      (runCreates env ts rnd reqs st).formDB.rows :=
    List.perm_insertionSort formGE _
  refine ⟨hperm, List.sorted_insertionSort formGE _, ?_, ?_⟩
  · rw [getForm, (List.perm_insertionSort formGE _).length_eq, hlen]
    omega
  · have hrowmem : row ∈ (runCreates env ts rnd reqs st).formDB.rows :=
      List.mem_of_getLast?_eq_some hlast
    rw [getForm, head_insertionSort_max hrowmem hmax, hlast]

/-- Witness for C8: two creates on the empty state. -/
theorem c8_witness :
    (getForm (runCreates ⟨none, none⟩ 0 0
        [⟨some "o1", some "s1", some "b1", some "p1", some "l1", none, none⟩,
         ⟨some "o2", some "s2", some "b2", some "p2", some "l2", none, none⟩]
        ⟨⟨[], 1⟩, []⟩)).Perm
      (runCreates ⟨none, none⟩ 0 0
        [⟨some "o1", some "s1", some "b1", some "p1", some "l1", none, none⟩,
         ⟨some "o2", some "s2", some "b2", some "p2", some "l2", none, none⟩]
        ⟨⟨[], 1⟩, []⟩).formDB.rows ∧
    List.Sorted formGE (getForm (runCreates ⟨none, none⟩ 0 0
        [⟨some "o1", some "s1", some "b1", some "p1", some "l1", none, none⟩,
         ⟨some "o2", some "s2", some "b2", some "p2", some "l2", none, none⟩]
        ⟨⟨[], 1⟩, []⟩)) ∧
    2 ≤ (getForm (runCreates ⟨none, none⟩ 0 0
        [⟨some "o1", some "s1", some "b1", some "p1", some "l1", none, none⟩,
         ⟨some "o2", some "s2", some "b2", some "p2", some "l2", none, none⟩]
        ⟨⟨[], 1⟩, []⟩)).length ∧
    (getForm (runCreates ⟨none, none⟩ 0 0
        [⟨some "o1", some "s1", some "b1", some "p1", some "l1", none, none⟩,
         ⟨some "o2", some "s2", some "b2", some "p2", some "l2", none, none⟩]
        ⟨⟨[], 1⟩, []⟩)).head? =
      (runCreates ⟨none, none⟩ 0 0
        [⟨some "o1", some "s1", some "b1", some "p1", some "l1", none, none⟩,
         ⟨some "o2", some "s2", some "b2", some "p2", some "l2", none, none⟩]
        ⟨⟨[], 1⟩, []⟩).formDB.rows.getLast? :=
  c8_form_list_order ⟨none, none⟩ 0 0
    [⟨some "o1", some "s1", some "b1", some "p1", some "l1", none, none⟩,
     ⟨some "o2", some "s2", some "b2", some "p2", some "l2", none, none⟩]
    ⟨⟨[], 1⟩, []⟩ (by intro r hr; simp at hr)
    (by
      intro r hr
      simp only [List.mem_cons, List.not_mem_nil, or_false] at hr
      rcases hr with h | h <;> subst h <;>
        exact ⟨by decide, by decide, by decide, by decide, by decide⟩)
    (by simp)

end Vendroo
